import Mathlib

/-!
# Address translation unit (`mmu.c`)

A shallow embedding of the two resolvers of `mmu.c` (16-bit legacy mode and
32-bit protected mode with a translation cache) and of their helpers.

Conventions of the embedding:

* a C `unsigned` is a `Nat`; where the C arithmetic can leave 32 bits the
  result is reduced `% 2 ^ 32` explicitly;
* a C `int` used as a truth value is a `Nat` that is tested against `0`
  (`pte_valid`, `valid_pointer`, `useFault`), the global `SUPER` is an `Int`;
* memory is a function from byte addresses to words, `arr[i]` on an
  `unsigned*` reads the word at `arr + 4 * i`;
* the globals `CR3` and `SUPER` are explicit parameters;
* the translation cache is state that is passed in and returned;
* a path of `mmu_resolve` that reaches the end of the function without a
  `return` yields `none`.
-/

namespace Mmu

/-! ## Types declared in `mmu.h` -/

/-- Modelled from the spec: the access kind `access_t` is declared in `mmu.h`,
which is not part of the sources; the spec names three access intents, read,
write and execute. -/
inductive access_t where
  | READ
  | WRITE
  | EXECUTE
  deriving DecidableEq, Repr

/-- Modelled from the spec: the status tag of `result_t` is declared in
`mmu.h`; the spec names three result states, success, page-fault and
protection-fault, and the source uses the constants below. -/
inductive status_t where
  | SUCCESS
  | PAGEFAULT
  | PROTFAULT
  deriving DecidableEq, Repr

/-- Modelled from the spec: `result_t` is declared in `mmu.h`; the source
fills its `status` field and the `pa` member of its `value` union, the spec
calls the latter the one diagnostic 32-bit value of a result. -/
structure result_t where
  status : status_t
  value : Nat
  deriving DecidableEq, Repr

/-- Modelled from the spec: the translation cache collaborator. `tlb_search`
and `tlb_add` are declared in `mmu.h` and defined outside the sources; the
spec gives them as `probe(index, tag) -> optional entry` and
`insert(index, tag, entry) -> void`. The cache state is `σ`; a probe that
hits returns the entry that the C function stores through its third
argument. -/
structure Tlb (σ : Type) where
  tlb_search : σ → Nat → Nat → Option Nat
  tlb_add : σ → Nat → Nat → Nat → σ

/-- Modelled from the spec: a concrete translation cache, keyed by
(index, tag), in which a probe returns the entry last inserted under the
key. The state is the list of insertions, newest first. -/
def listTlb : Tlb (List (Nat × Nat × Nat)) where
  tlb_search := fun c i t =>
    match c.find? (fun e => e.1 == i && e.2.1 == t) with
    | some e => some e.2.2
    | none => none
  tlb_add := fun c i t pte => (i, t, pte) :: c

/-! ## Memory -/

/-- Word-addressed view of memory: the content found at a byte address. -/
abbrev Mem := Nat → Nat

/-- Read of one `unsigned` through a pointer: the value is a 32-bit word. -/
def load (mem : Mem) (a : Nat) : Nat := mem a % 2 ^ 32

/-! ## Result builders (`mmu.c` lines 39-61) -/

/-- The function `success` of the source: a result in state `SUCCESS`. -/
def success (pa : Nat) : result_t := { status := status_t.SUCCESS, value := pa }

/-- The function `protectionfault` of the source. -/
def protectionfault (pa : Nat) : result_t := { status := status_t.PROTFAULT, value := pa }

/-- The function `pagefault` of the source. -/
def pagefault (pa : Nat) : result_t := { status := status_t.PAGEFAULT, value := pa }

/-! ## Entry decoding (`mmu.c` lines 63-72) -/

/-- The function `pte_valid`: `1 & (pte >> 31)`. -/
def pte_valid (pte : Nat) : Nat := 1 &&& (pte >>> 31)

/-- The function `pte_ppn`: `0xFFFFFF & (pte >> 4)`. -/
def pte_ppn (pte : Nat) : Nat := 0xFFFFFF &&& (pte >>> 4)

/-! ## Legacy mode (`mmu.c` lines 75-89) -/

/-- The function `mmu_legacy`; `va` is the `unsigned short` argument. -/
def mmu_legacy (mem : Mem) (CR3 : Nat) (va : Nat) : result_t :=
  let vpn := 0xFF &&& (va >>> 8)
  let po := 0xFF &&& va
  let pte := load mem (CR3 + 4 * vpn)
  if pte_valid pte ≠ 0 then
    success (((pte_ppn pte <<< 8) % 2 ^ 32) ||| po)
  else
    pagefault vpn

/-! ## Protected mode (`mmu.c` lines 130-203) -/

/-- The function `valid_pointer`: `p & 1`. -/
def valid_pointer (p : Nat) : Nat := p &&& 1

/-- The function `pointer_address`: `p & (~1)`, on 32 bits. -/
def pointer_address (p : Nat) : Nat := p &&& 0xFFFFFFFE

/-- The function `useFault`: `1` when a protection fault occurs, else `0`. -/
def useFault (SUPER : Int) (use : access_t) (pte : Nat) : Nat :=
  let execute := pte &&& 1
  let write := (pte >>> 1) &&& 1
  let read := (pte >>> 2) &&& 1
  let permission := (pte >>> 3) &&& 1
  let result : Nat :=
    if (use = access_t.READ ∧ read = 0) ∨
       (use = access_t.WRITE ∧ write = 0) ∨
       (use = access_t.EXECUTE ∧ execute = 0) then 1 else 0
  let result : Nat := if result ≠ 0 ∨ (permission ≠ 0 ∧ SUPER = 0) then 1 else 0
  result

/-- The function `evaluateValidPte`. -/
def evaluateValidPte (SUPER : Int) (use : access_t) (pte po : Nat) : result_t :=
  if useFault SUPER use pte ≠ 0 then
    protectionfault pte
  else
    success (((pte_ppn pte <<< 8) % 2 ^ 32) ||| po)

/-- The function `mmu_resolve`. The result is paired with the cache after the
call; `none` is the path on which the C function ends without a `return`. -/
def mmu_resolve {σ : Type} (T : Tlb σ) (mem : Mem) (CR3 : Nat) (SUPER : Int)
    (c : σ) (va : Nat) (use : access_t) : Option (result_t × σ) :=
  let uva := va % 2 ^ 32
  let tlb_index := (uva >>> 8) &&& 0xFF
  let tlb_tag := (uva >>> 16) &&& 0xFFFF
  let vpn := (uva >>> 8) &&& 0xFFFFFF
  let po := 0xFF &&& uva
  let pteIndex := 0xFF &&& (uva >>> 8)
  let ptIndex := 0xFF &&& (uva >>> 16)
  let dirIndex := 0xFF &&& (uva >>> 24)
  match T.tlb_search c tlb_index tlb_tag with
  | some pte => some (evaluateValidPte SUPER use pte po, c)
  | none =>
    let dirPointer := load mem (CR3 + 4 * dirIndex)
    if valid_pointer dirPointer ≠ 0 then
      let dirArray := pointer_address dirPointer
      let ptPointer := load mem (dirArray + 4 * ptIndex)
      if valid_pointer ptPointer ≠ 0 then
        let ptArray := pointer_address ptPointer
        let pte := load mem (ptArray + 4 * pteIndex)
        if pte_valid pte ≠ 0 then
          some (evaluateValidPte SUPER use pte po, T.tlb_add c tlb_index tlb_tag pte)
        else
          some (pagefault vpn, c)
      else
        some (pagefault vpn, c)
    else
      none

/-! ## A concrete machine state used in the examples -/

/-- Example memory: root array at `0x1000`, one directory at `0x2000`, one
page table at `0x3000` whose entry `0x56` maps to page `0xABCDEF`, readable. -/
def exampleMem : Mem := fun a =>
  if a = 0x1000 + 4 * 0x12 then 0x2001
  else if a = 0x2000 + 4 * 0x34 then 0x3001
  else if a = 0x3000 + 4 * 0x56 then 0x8ABCDEF4
  else 0

/-- Example memory in which the directory pointer `root[0x12]` has its valid
bit clear. -/
def memDirInvalid : Mem := fun a =>
  if a = 0x1000 + 4 * 0x12 then 0x2000
  else if a = 0x2000 + 4 * 0x34 then 0x3001
  else if a = 0x3000 + 4 * 0x56 then 0x8ABCDEF4
  else 0

/-- Example memory in which the table pointer at index `0x34` of the
directory has its valid bit clear. -/
def memPtInvalid : Mem := fun a =>
  if a = 0x1000 + 4 * 0x12 then 0x2001
  else if a = 0x2000 + 4 * 0x34 then 0x3000
  else if a = 0x3000 + 4 * 0x56 then 0x8ABCDEF4
  else 0

/-- Example memory in which the entry at index `0x56` of the page table has
its valid bit clear and every other bit of the page number and of the
permissions set as in a readable, writable, executable page. -/
def memPteInvalid : Mem := fun a =>
  if a = 0x1000 + 4 * 0x12 then 0x2001
  else if a = 0x2000 + 4 * 0x34 then 0x3001
  else if a = 0x3000 + 4 * 0x56 then 0x0ABCDEF7
  else 0

/-! ## Vocabulary of the specification

The three words that the walk of an address reads (`mmu.c` lines 185, 189
and 193), with the index fields written as quotients and remainders. -/

/-- Directory pointer of `va`: `cr3[dirIndex]`, the word at index bits 31..24
of the root array. -/
def dirPointerAt (mem : Mem) (CR3 va : Nat) : Nat :=
  load mem (CR3 + 4 * (va / 2 ^ 24 % 2 ^ 8))

/-- Table pointer of `va`: `dirArray[ptIndex]`, the word at index bits 23..16
of the array that the directory pointer is dereferenced to. -/
def ptPointerAt (mem : Mem) (CR3 va : Nat) : Nat :=
  load mem (pointer_address (dirPointerAt mem CR3 va) + 4 * (va / 2 ^ 16 % 2 ^ 8))

/-- Entry of `va`: `ptArray[pteIndex]`, the word at index bits 15..8 of the
array that the table pointer is dereferenced to. -/
def pteAt (mem : Mem) (CR3 va : Nat) : Nat :=
  load mem (pointer_address (ptPointerAt mem CR3 va) + 4 * (va / 2 ^ 8 % 2 ^ 8))

/-- The valid third-level entry that the table walk reaches for a virtual
page number, in the words of the specification: the directory pointer, the
table pointer and the entry of the page are read in turn, each one must be
valid, and the entry is the outcome; there is none when a level is invalid. -/
def walkEntry (mem : Mem) (CR3 vpn : Nat) : Option Nat :=
  if (dirPointerAt mem CR3 (vpn * 2 ^ 8)).testBit 0 = true ∧
      (ptPointerAt mem CR3 (vpn * 2 ^ 8)).testBit 0 = true ∧
      (pteAt mem CR3 (vpn * 2 ^ 8)).testBit 31 = true then
    some (pteAt mem CR3 (vpn * 2 ^ 8))
  else none

/-- A cache is coherent with the tables when each occupied slot (index, tag)
holds exactly the valid third-level entry that the table walk reaches for
the virtual page number `(tag << 8) | index`. -/
def coherent {σ : Type} (T : Tlb σ) (mem : Mem) (CR3 : Nat) (c : σ) : Prop :=
  ∀ i t e : Nat, i < 2 ^ 8 → t < 2 ^ 16 → T.tlb_search c i t = some e →
    walkEntry mem CR3 ((t <<< 8) ||| i) = some e

/-- The decision of `useFault`, with the four flags read as bits. -/
def faultCondition (SUPER : Int) (use : access_t) (pte : Nat) : Prop :=
  (use = access_t.READ ∧ pte.testBit 2 = false) ∨
  (use = access_t.WRITE ∧ pte.testBit 1 = false) ∨
  (use = access_t.EXECUTE ∧ pte.testBit 0 = false) ∨
  (pte.testBit 3 = true ∧ SUPER = 0)

instance (SUPER : Int) (use : access_t) (pte : Nat) : Decidable (faultCondition SUPER use pte) := by
  unfold faultCondition
  infer_instance

/-! ## The address fields of `mmu_resolve`

The locals that `mmu_resolve` computes from `uva`, the address cast to
`unsigned` (`mmu.c` lines 172-178), each under the name it has in the source. -/

/-- The local `tlb_index`: `(uva >> 8) & 0xFF`. -/
def tlb_index (uva : Nat) : Nat := (uva >>> 8) &&& 0xFF

/-- The local `tlb_tag`: `(uva >> 16) & 0xFFFF`. -/
def tlb_tag (uva : Nat) : Nat := (uva >>> 16) &&& 0xFFFF

/-- The local `vpn`: `(uva >> 8) & 0xFFFFFF`. -/
def vpn (uva : Nat) : Nat := (uva >>> 8) &&& 0xFFFFFF

/-- The local `po`: `0xFF & uva`. -/
def po (uva : Nat) : Nat := 0xFF &&& uva

/-- The local `pteIndex`: `0xFF & (uva >> 8)`. -/
def pteIndex (uva : Nat) : Nat := 0xFF &&& (uva >>> 8)

/-- The local `ptIndex`: `0xFF & (uva >> 16)`. -/
def ptIndex (uva : Nat) : Nat := 0xFF &&& (uva >>> 16)

/-- The local `dirIndex`: `0xFF & (uva >> 24)`. -/
def dirIndex (uva : Nat) : Nat := 0xFF &&& (uva >>> 24)

/-! ## Cache contents and sequences of calls -/

/-- Every entry stored in the cache has its valid bit (bit 31) set. -/
def cacheValid {σ : Type} (T : Tlb σ) (c : σ) : Prop :=
  ∀ i t e : Nat, T.tlb_search c i t = some e → e.testBit 31 = true

/-- A sequence of calls of `mmu_resolve`, each with its own memory, root,
privilege mode, address and access kind, run one after the other on the
cache that the previous call left; the outcome is the final cache, and
there is none when a call ends without a result. -/
def resolveSeq {σ : Type} (T : Tlb σ) (c : σ) :
    List (Mem × Nat × Int × Nat × access_t) → Option σ
  | [] => some c
  | call :: rest =>
    match mmu_resolve T call.1 call.2.1 call.2.2.1 c call.2.2.2.1 call.2.2.2.2 with
    | some r => resolveSeq T r.2 rest
    | none => none

/-- Example memory that differs from `exampleMem` in bit 1 of the directory
pointer `root[0x12]` only, one of the bits 3..1 that the pointer format
leaves unused. -/
def memUnusedBit : Mem := fun a =>
  if a = 0x1000 + 4 * 0x12 then 0x2003
  else if a = 0x2000 + 4 * 0x34 then 0x3001
  else if a = 0x3000 + 4 * 0x56 then 0x8ABCDEF4
  else 0

/-! ## Bit-field lemmas -/

theorem land_low (x n : Nat) : (2 ^ n - 1) &&& x = x % 2 ^ n := by
  rw [Nat.and_comm, Nat.and_pow_two_sub_one_eq_mod]

theorem field_of_cast (va k w : Nat) (hk : k + w ≤ 32) :
    ((va % 2 ^ 32) >>> k) % 2 ^ w = va / 2 ^ k % 2 ^ w := by
  rw [← Nat.shiftRight_eq_div_pow]
  apply Nat.eq_of_testBit_eq
  intro i
  simp only [Nat.testBit_mod_two_pow, Nat.testBit_shiftRight]
  by_cases h : i < w
  · have : k + i < 32 := by omega
    simp [h, this]
  · simp [h]

theorem fld_index (va : Nat) : ((va % 2 ^ 32) >>> 8) &&& 0xFF = va / 2 ^ 8 % 2 ^ 8 := by
  rw [show (0xFF : Nat) = 2 ^ 8 - 1 from rfl, Nat.and_pow_two_sub_one_eq_mod]
  exact field_of_cast va 8 8 (by decide)

theorem fld_tag (va : Nat) : ((va % 2 ^ 32) >>> 16) &&& 0xFFFF = va / 2 ^ 16 % 2 ^ 16 := by
  rw [show (0xFFFF : Nat) = 2 ^ 16 - 1 from rfl, Nat.and_pow_two_sub_one_eq_mod]
  exact field_of_cast va 16 16 (by decide)

theorem fld_vpn (va : Nat) : ((va % 2 ^ 32) >>> 8) &&& 0xFFFFFF = va / 2 ^ 8 % 2 ^ 24 := by
  rw [show (0xFFFFFF : Nat) = 2 ^ 24 - 1 from rfl, Nat.and_pow_two_sub_one_eq_mod]
  exact field_of_cast va 8 24 (by decide)

theorem fld_po (va : Nat) : 0xFF &&& (va % 2 ^ 32) = va % 2 ^ 8 := by
  rw [show (0xFF : Nat) = 2 ^ 8 - 1 from rfl, land_low]
  simpa using field_of_cast va 0 8 (by decide)

theorem fld_sh (va k : Nat) (hk : k + 8 ≤ 32) :
    0xFF &&& ((va % 2 ^ 32) >>> k) = va / 2 ^ k % 2 ^ 8 := by
  rw [show (0xFF : Nat) = 2 ^ 8 - 1 from rfl, land_low]
  exact field_of_cast va k 8 hk

theorem fld_pteIndex (va : Nat) : 0xFF &&& ((va % 2 ^ 32) >>> 8) = va / 2 ^ 8 % 2 ^ 8 :=
  fld_sh va 8 (by decide)

theorem fld_ptIndex (va : Nat) : 0xFF &&& ((va % 2 ^ 32) >>> 16) = va / 2 ^ 16 % 2 ^ 8 :=
  fld_sh va 16 (by decide)

theorem fld_dirIndex (va : Nat) : 0xFF &&& ((va % 2 ^ 32) >>> 24) = va / 2 ^ 24 % 2 ^ 8 :=
  fld_sh va 24 (by decide)

theorem bit_ne_zero (x i : Nat) : (x >>> i) &&& 1 ≠ 0 ↔ x.testBit i = true := by
  rw [Nat.and_one_is_mod, Nat.shiftRight_eq_div_pow, Nat.testBit_to_div_mod]
  simp

theorem bit_eq_zero (x i : Nat) : (x >>> i) &&& 1 = 0 ↔ x.testBit i = false := by
  rw [Nat.and_one_is_mod, Nat.shiftRight_eq_div_pow, Nat.testBit_to_div_mod]
  simp

theorem bit0_ne_zero (x : Nat) : x &&& 1 ≠ 0 ↔ x.testBit 0 = true :=
  bit_ne_zero x 0

theorem bit0_eq_zero (x : Nat) : x &&& 1 = 0 ↔ x.testBit 0 = false :=
  bit_eq_zero x 0

theorem pte_valid_ne_zero (pte : Nat) : pte_valid pte ≠ 0 ↔ pte.testBit 31 = true := by
  unfold pte_valid
  rw [Nat.and_comm]
  exact bit_ne_zero pte 31

theorem valid_pointer_ne_zero (p : Nat) : valid_pointer p ≠ 0 ↔ p.testBit 0 = true :=
  bit0_ne_zero p

theorem pte_ppn_eq (pte : Nat) : pte_ppn pte = pte / 2 ^ 4 % 2 ^ 24 := by
  unfold pte_ppn
  rw [show (0xFFFFFF : Nat) = 2 ^ 24 - 1 from rfl, land_low, Nat.shiftRight_eq_div_pow]

theorem assemble_eq (pte po : Nat) (h : po < 2 ^ 8) :
    ((pte_ppn pte <<< 8) % 2 ^ 32) ||| po = (pte / 2 ^ 4 % 2 ^ 24) * 2 ^ 8 + po := by
  rw [pte_ppn_eq, Nat.shiftLeft_eq]
  have h1 : pte / 2 ^ 4 % 2 ^ 24 < 2 ^ 24 := Nat.mod_lt _ (by norm_num)
  rw [Nat.mod_eq_of_lt (by omega), Nat.mul_comm, ← Nat.mul_add_lt_is_or h]

/-! ## Normal forms of the functions -/

theorem useFault_eq (SUPER : Int) (use : access_t) (pte : Nat) :
    useFault SUPER use pte = if faultCondition SUPER use pte then 1 else 0 := by
  unfold useFault faultCondition
  simp only [bit0_eq_zero, bit0_ne_zero, Nat.testBit_shiftRight, Nat.add_zero]
  rcases Bool.eq_false_or_eq_true (pte.testBit 0) with h0 | h0 <;>
  rcases Bool.eq_false_or_eq_true (pte.testBit 1) with h1 | h1 <;>
  rcases Bool.eq_false_or_eq_true (pte.testBit 2) with h2 | h2 <;>
  rcases Bool.eq_false_or_eq_true (pte.testBit 3) with h3 | h3 <;>
  by_cases hs : SUPER = 0 <;>
  cases use <;> simp [h0, h1, h2, h3, hs]

theorem useFault_ne_zero (SUPER : Int) (use : access_t) (pte : Nat) :
    useFault SUPER use pte ≠ 0 ↔ faultCondition SUPER use pte := by
  rw [useFault_eq]
  by_cases h : faultCondition SUPER use pte <;> simp [h]

theorem evaluateValidPte_fault (SUPER : Int) (use : access_t) (pte po : Nat)
    (h : faultCondition SUPER use pte) :
    evaluateValidPte SUPER use pte po = protectionfault pte := by
  unfold evaluateValidPte
  rw [if_pos ((useFault_ne_zero SUPER use pte).2 h)]

theorem evaluateValidPte_ok (SUPER : Int) (use : access_t) (pte po : Nat)
    (h : ¬ faultCondition SUPER use pte) (hpo : po < 2 ^ 8) :
    evaluateValidPte SUPER use pte po = success ((pte / 2 ^ 4 % 2 ^ 24) * 2 ^ 8 + po) := by
  unfold evaluateValidPte
  rw [if_neg (fun hf => h ((useFault_ne_zero SUPER use pte).1 hf)), assemble_eq pte po hpo]

/-- Cache hit: the result is the evaluation of the cached entry. -/
theorem mmu_resolve_hit {σ : Type} (T : Tlb σ) (mem : Mem) (CR3 : Nat) (SUPER : Int)
    (c : σ) (va : Nat) (use : access_t) (e : Nat)
    (hhit : T.tlb_search c (va / 2 ^ 8 % 2 ^ 8) (va / 2 ^ 16 % 2 ^ 16) = some e) :
    mmu_resolve T mem CR3 SUPER c va use = some (evaluateValidPte SUPER use e (va % 2 ^ 8), c) := by
  unfold mmu_resolve
  simp only [fld_index, fld_tag, fld_po, hhit]

/-- Cache miss: the three-level walk, in the vocabulary of the specification. -/
theorem mmu_resolve_miss {σ : Type} (T : Tlb σ) (mem : Mem) (CR3 : Nat) (SUPER : Int)
    (c : σ) (va : Nat) (use : access_t)
    (hmiss : T.tlb_search c (va / 2 ^ 8 % 2 ^ 8) (va / 2 ^ 16 % 2 ^ 16) = none) :
    mmu_resolve T mem CR3 SUPER c va use =
      if (dirPointerAt mem CR3 va).testBit 0 = true then
        if (ptPointerAt mem CR3 va).testBit 0 = true then
          if (pteAt mem CR3 va).testBit 31 = true then
            some (evaluateValidPte SUPER use (pteAt mem CR3 va) (va % 2 ^ 8),
              T.tlb_add c (va / 2 ^ 8 % 2 ^ 8) (va / 2 ^ 16 % 2 ^ 16) (pteAt mem CR3 va))
          else some (pagefault (va / 2 ^ 8 % 2 ^ 24), c)
        else some (pagefault (va / 2 ^ 8 % 2 ^ 24), c)
      else none := by
  unfold mmu_resolve
  simp only [fld_index, fld_tag, fld_vpn, fld_po, fld_pteIndex, fld_ptIndex, fld_dirIndex, hmiss,
    valid_pointer_ne_zero, pte_valid_ne_zero]
  rfl

/-- Legacy mode, in the vocabulary of the specification. -/
theorem mmu_legacy_eq (mem : Mem) (CR3 va : Nat) :
    mmu_legacy mem CR3 va =
      if (load mem (CR3 + 4 * (va / 2 ^ 8 % 2 ^ 8))).testBit 31 = true then
        success ((load mem (CR3 + 4 * (va / 2 ^ 8 % 2 ^ 8)) / 2 ^ 4 % 2 ^ 24) * 2 ^ 8 + va % 2 ^ 8)
      else pagefault (va / 2 ^ 8 % 2 ^ 8) := by
  have hpo : 0xFF &&& va = va % 2 ^ 8 := land_low va 8
  have hvpn : 0xFF &&& (va >>> 8) = va / 2 ^ 8 % 2 ^ 8 := by
    rw [show (0xFF : Nat) = 2 ^ 8 - 1 from rfl, land_low, Nat.shiftRight_eq_div_pow]
  unfold mmu_legacy
  simp only [hpo, hvpn, pte_valid_ne_zero]
  rw [assemble_eq _ _ (Nat.mod_lt _ (by norm_num))]

/-! ## The protected resolver: outcomes of the walk -/

/-- C1: when the cache probe misses, the directory pointer, the table pointer
and the entry of the address are all valid and `useFault` reports no fault for
the entry, `mmu_resolve` returns `SUCCESS` with physical address
(bits 27..4 of the entry << 8) | (bits 7..0 of the address). -/
theorem resolve_success {σ : Type} (T : Tlb σ) (mem : Mem) (CR3 : Nat) (SUPER : Int)
    (c : σ) (va : Nat) (use : access_t)
    (hmiss : T.tlb_search c (va / 2 ^ 8 % 2 ^ 8) (va / 2 ^ 16 % 2 ^ 16) = none)
    (hdir : (dirPointerAt mem CR3 va).testBit 0 = true)
    (hpt : (ptPointerAt mem CR3 va).testBit 0 = true)
    (hpte : (pteAt mem CR3 va).testBit 31 = true)
    (hperm : useFault SUPER use (pteAt mem CR3 va) = 0) :
    (mmu_resolve T mem CR3 SUPER c va use).map Prod.fst =
      some { status := status_t.SUCCESS,
             value := (pteAt mem CR3 va / 2 ^ 4 % 2 ^ 24) * 2 ^ 8 + va % 2 ^ 8 } := by
  have hno : ¬ faultCondition SUPER use (pteAt mem CR3 va) := fun hf =>
    (useFault_ne_zero SUPER use _).2 hf hperm
  rw [mmu_resolve_miss T mem CR3 SUPER c va use hmiss, if_pos hdir, if_pos hpt, if_pos hpte,
    evaluateValidPte_ok SUPER use _ _ hno (Nat.mod_lt _ (by norm_num))]
  rfl

/-- Witness of C1: address `0x12345678`, entry with page number `0xABCDEF`
and read bit set, `READ` requested, gives `SUCCESS` with `0xABCDEF78`. -/
theorem resolve_success_witness :
    (mmu_resolve listTlb exampleMem 0x1000 0 [] 0x12345678 access_t.READ).map Prod.fst =
      some { status := status_t.SUCCESS, value := 0xABCDEF78 } :=
  resolve_success listTlb exampleMem 0x1000 0 [] 0x12345678 access_t.READ
    (by decide) (by decide) (by decide) (by decide) (by decide)

/-- C2, evaluated on the code: with a cache miss and the directory pointer
`root[0x12]` invalid, the walk of `0x12345678` reaches the end of
`mmu_resolve` without a `return`; no page-fault result is produced. -/
theorem resolve_dir_invalid_falls_through :
    listTlb.tlb_search [] 0x56 0x1234 = none ∧
    (dirPointerAt memDirInvalid 0x1000 0x12345678).testBit 0 = false ∧
    mmu_resolve listTlb memDirInvalid 0x1000 0 [] 0x12345678 access_t.READ = none ∧
    mmu_resolve listTlb memDirInvalid 0x1000 0 [] 0x12345678 access_t.READ
      ≠ some (pagefault 0x123456, []) := by
  decide

/-- C3: when the cache probe misses, the directory pointer is valid and the
table pointer is invalid, `mmu_resolve` returns `PAGEFAULT` with the virtual
page number (bits 31..8 of the address); the same holds for every access
kind, every privilege mode and every memory that agrees on the two pointers
read, so no third-level entry takes part. -/
theorem resolve_table_invalid {σ : Type} (T : Tlb σ) (mem : Mem) (CR3 : Nat) (SUPER : Int)
    (c : σ) (va : Nat) (use : access_t)
    (hmiss : T.tlb_search c (va / 2 ^ 8 % 2 ^ 8) (va / 2 ^ 16 % 2 ^ 16) = none)
    (hdir : (dirPointerAt mem CR3 va).testBit 0 = true)
    (hpt : (ptPointerAt mem CR3 va).testBit 0 = false) :
    (mmu_resolve T mem CR3 SUPER c va use).map Prod.fst =
        some { status := status_t.PAGEFAULT, value := va / 2 ^ 8 % 2 ^ 24 } ∧
    ∀ (mem2 : Mem) (SUPER2 : Int) (use2 : access_t),
      mem2 (CR3 + 4 * (va / 2 ^ 24 % 2 ^ 8)) = mem (CR3 + 4 * (va / 2 ^ 24 % 2 ^ 8)) →
      mem2 (pointer_address (dirPointerAt mem CR3 va) + 4 * (va / 2 ^ 16 % 2 ^ 8)) =
        mem (pointer_address (dirPointerAt mem CR3 va) + 4 * (va / 2 ^ 16 % 2 ^ 8)) →
      (mmu_resolve T mem2 CR3 SUPER2 c va use2).map Prod.fst =
        some { status := status_t.PAGEFAULT, value := va / 2 ^ 8 % 2 ^ 24 } := by
  have key : ∀ (m : Mem) (S : Int) (u : access_t),
      (dirPointerAt m CR3 va).testBit 0 = true → (ptPointerAt m CR3 va).testBit 0 = false →
      (mmu_resolve T m CR3 S c va u).map Prod.fst =
        some { status := status_t.PAGEFAULT, value := va / 2 ^ 8 % 2 ^ 24 } := by
    intro m S u h1 h2
    have h2f : ¬ (ptPointerAt m CR3 va).testBit 0 = true := by
      rw [h2]
      decide
    rw [mmu_resolve_miss T m CR3 S c va u hmiss, if_pos h1, if_neg h2f]
    rfl
  refine ⟨key mem SUPER use hdir hpt, ?_⟩
  intro mem2 SUPER2 use2 e1 e2
  have d : dirPointerAt mem2 CR3 va = dirPointerAt mem CR3 va := by
    unfold dirPointerAt load
    rw [e1]
  have p : ptPointerAt mem2 CR3 va = ptPointerAt mem CR3 va := by
    unfold ptPointerAt
    rw [d]
    unfold load
    rw [e2]
  exact key mem2 SUPER2 use2 (d ▸ hdir) (p ▸ hpt)

/-- Witness of C3: address `0x12345678` with `root[0x12]` valid and entry
`0x34` of the directory invalid gives `PAGEFAULT` with `0x123456`. -/
theorem resolve_table_invalid_witness :
    (mmu_resolve listTlb memPtInvalid 0x1000 0 [] 0x12345678 access_t.READ).map Prod.fst =
      some { status := status_t.PAGEFAULT, value := 0x123456 } :=
  (resolve_table_invalid listTlb memPtInvalid 0x1000 0 [] 0x12345678 access_t.READ
    (by decide) (by decide) (by decide)).1

/-- C4: when the cache probe misses, the directory pointer and the table
pointer are valid and the entry has bit 31 clear, `mmu_resolve` returns
`PAGEFAULT` with the virtual page number, for every content of the other bits
of the entry. -/
theorem resolve_entry_invalid {σ : Type} (T : Tlb σ) (mem : Mem) (CR3 : Nat) (SUPER : Int)
    (c : σ) (va : Nat) (use : access_t)
    (hmiss : T.tlb_search c (va / 2 ^ 8 % 2 ^ 8) (va / 2 ^ 16 % 2 ^ 16) = none)
    (hdir : (dirPointerAt mem CR3 va).testBit 0 = true)
    (hpt : (ptPointerAt mem CR3 va).testBit 0 = true)
    (hpte : (pteAt mem CR3 va).testBit 31 = false) :
    (mmu_resolve T mem CR3 SUPER c va use).map Prod.fst =
      some { status := status_t.PAGEFAULT, value := va / 2 ^ 8 % 2 ^ 24 } := by
  have hf : ¬ (pteAt mem CR3 va).testBit 31 = true := by
    rw [hpte]
    decide
  rw [mmu_resolve_miss T mem CR3 SUPER c va use hmiss, if_pos hdir, if_pos hpt, if_neg hf]
  rfl

/-- Witness of C4: the entry `0x0ABCDEF7` has every permission bit set and
bit 31 clear; the walk of `0x12345678` gives `PAGEFAULT` with `0x123456`. -/
theorem resolve_entry_invalid_witness :
    (mmu_resolve listTlb memPteInvalid 0x1000 0 [] 0x12345678 access_t.READ).map Prod.fst =
      some { status := status_t.PAGEFAULT, value := 0x123456 } :=
  resolve_entry_invalid listTlb memPteInvalid 0x1000 0 [] 0x12345678 access_t.READ
    (by decide) (by decide) (by decide) (by decide)

/-- C5: when the cache probe misses and all three levels are valid, but the
permission bit of the requested access kind is clear in the entry, or bit 3
of the entry is set while the privilege mode is user (`SUPER` is `0`),
`mmu_resolve` returns `PROTFAULT` whose value is the entry itself. -/
theorem resolve_protection_fault {σ : Type} (T : Tlb σ) (mem : Mem) (CR3 : Nat) (SUPER : Int)
    (c : σ) (va : Nat) (use : access_t)
    (hmiss : T.tlb_search c (va / 2 ^ 8 % 2 ^ 8) (va / 2 ^ 16 % 2 ^ 16) = none)
    (hdir : (dirPointerAt mem CR3 va).testBit 0 = true)
    (hpt : (ptPointerAt mem CR3 va).testBit 0 = true)
    (hpte : (pteAt mem CR3 va).testBit 31 = true)
    (hdeny : (use = access_t.READ ∧ (pteAt mem CR3 va).testBit 2 = false) ∨
      (use = access_t.WRITE ∧ (pteAt mem CR3 va).testBit 1 = false) ∨
      (use = access_t.EXECUTE ∧ (pteAt mem CR3 va).testBit 0 = false) ∨
      ((pteAt mem CR3 va).testBit 3 = true ∧ SUPER = 0)) :
    (mmu_resolve T mem CR3 SUPER c va use).map Prod.fst =
      some { status := status_t.PROTFAULT, value := pteAt mem CR3 va } := by
  rw [mmu_resolve_miss T mem CR3 SUPER c va use hmiss, if_pos hdir, if_pos hpt, if_pos hpte,
    evaluateValidPte_fault SUPER use _ _ hdeny]
  rfl

/-- Witness of C5: the entry `0x8ABCDEF4` is valid and readable only; a
`WRITE` to `0x12345678` gives `PROTFAULT` carrying `0x8ABCDEF4`. -/
theorem resolve_protection_fault_witness :
    (mmu_resolve listTlb exampleMem 0x1000 0 [] 0x12345678 access_t.WRITE).map Prod.fst =
      some { status := status_t.PROTFAULT, value := 0x8ABCDEF4 } :=
  resolve_protection_fault listTlb exampleMem 0x1000 0 [] 0x12345678 access_t.WRITE
    (by decide) (by decide) (by decide) (by decide) (by decide)

/-! ## The permission evaluator -/

/-- The fault decision reads only the four low bits of the entry. -/
theorem faultCondition_low_bits (SUPER : Int) (use : access_t) (pte : Nat) :
    faultCondition SUPER use (pte % 2 ^ 4) ↔ faultCondition SUPER use pte := by
  have hb : ∀ i, i < 4 → (pte % 2 ^ 4).testBit i = pte.testBit i := by
    intro i hi
    rw [Nat.testBit_mod_two_pow]
    simp [hi]
  unfold faultCondition
  rw [hb 0 (by decide), hb 1 (by decide), hb 2 (by decide), hb 3 (by decide)]

/-- C6: `useFault` signals a fault exactly when `READ` is requested and bit 2
is clear, or `WRITE` is requested and bit 1 is clear, or `EXECUTE` is
requested and bit 0 is clear, or bit 3 is set and the privilege mode is not
supervisor (`SUPER` is `0`); its answer is that of the four low bits of the
entry alone. -/
theorem useFault_spec (SUPER : Int) (use : access_t) (pte : Nat) :
    (useFault SUPER use pte ≠ 0 ↔
      ((use = access_t.READ ∧ pte.testBit 2 = false) ∨
       (use = access_t.WRITE ∧ pte.testBit 1 = false) ∨
       (use = access_t.EXECUTE ∧ pte.testBit 0 = false) ∨
       (pte.testBit 3 = true ∧ SUPER = 0))) ∧
    useFault SUPER use pte = useFault SUPER use (pte % 2 ^ 4) := by
  refine ⟨useFault_ne_zero SUPER use pte, ?_⟩
  rw [useFault_eq SUPER use pte, useFault_eq SUPER use (pte % 2 ^ 4)]
  by_cases h : faultCondition SUPER use pte
  · rw [if_pos h, if_pos ((faultCondition_low_bits SUPER use pte).2 h)]
  · rw [if_neg h, if_neg (fun h2 => h ((faultCondition_low_bits SUPER use pte).1 h2))]

/-! ## The legacy resolver -/

/-- C7: for a 16-bit address whose entry `table[high byte]` has bit 31 set,
`mmu_legacy` returns `SUCCESS` with physical address
(bits 27..4 of the entry << 8) | (low byte of the address); no permission bit
and no privilege mode takes part. -/
theorem legacy_success (mem : Mem) (CR3 va : Nat)
    (hva : va < 2 ^ 16)
    (hvalid : (load mem (CR3 + 4 * (va / 2 ^ 8))).testBit 31 = true) :
    mmu_legacy mem CR3 va =
      { status := status_t.SUCCESS,
        value := (load mem (CR3 + 4 * (va / 2 ^ 8)) / 2 ^ 4 % 2 ^ 24) * 2 ^ 8 + va % 2 ^ 8 } := by
  have hp : va / 2 ^ 8 % 2 ^ 8 = va / 2 ^ 8 := by
    norm_num at hva ⊢
    omega
  rw [mmu_legacy_eq, hp, if_pos hvalid]
  rfl

/-- Witness of C7: entry `0x56` of the table at `0x3000` is `0x8ABCDEF4`,
readable only; address `0x5678` resolves to `0xABCDEF78`. -/
theorem legacy_success_witness :
    mmu_legacy exampleMem 0x3000 0x5678 = { status := status_t.SUCCESS, value := 0xABCDEF78 } :=
  legacy_success exampleMem 0x3000 0x5678 (by decide) (by decide)

/-- C8: for a 16-bit address whose entry `table[high byte]` has bit 31 clear,
`mmu_legacy` returns `PAGEFAULT` whose value is the page number, the high byte
of the address, a value below 256; the other bits of the entry do not take
part. -/
theorem legacy_pagefault (mem : Mem) (CR3 va : Nat)
    (hva : va < 2 ^ 16)
    (hinvalid : (load mem (CR3 + 4 * (va / 2 ^ 8))).testBit 31 = false) :
    mmu_legacy mem CR3 va = { status := status_t.PAGEFAULT, value := va / 2 ^ 8 } ∧
      va / 2 ^ 8 < 256 := by
  have hp : va / 2 ^ 8 % 2 ^ 8 = va / 2 ^ 8 := by
    norm_num at hva ⊢
    omega
  have hlt : va / 2 ^ 8 < 256 := by
    norm_num at hva ⊢
    omega
  have hf : ¬ (load mem (CR3 + 4 * (va / 2 ^ 8))).testBit 31 = true := by
    rw [hinvalid]
    decide
  refine ⟨?_, hlt⟩
  rw [mmu_legacy_eq, hp, if_neg hf]
  rfl

/-- Witness of C8: entry `0x56` of the table at `0x3000` is `0x0ABCDEF7`, with
every permission bit set and bit 31 clear; address `0x5678` page-faults with
page number `0x56`. -/
theorem legacy_pagefault_witness :
    mmu_legacy memPteInvalid 0x3000 0x5678 = { status := status_t.PAGEFAULT, value := 0x56 } :=
  (legacy_pagefault memPteInvalid 0x3000 0x5678 (by decide) (by decide)).1

/-! ## The translation cache -/

theorem key_to_vpn (va : Nat) :
    ((va / 2 ^ 16 % 2 ^ 16) <<< 8) ||| (va / 2 ^ 8 % 2 ^ 8) = va / 2 ^ 8 % 2 ^ 24 := by
  have h : va / 2 ^ 8 % 2 ^ 8 < 2 ^ 8 := Nat.mod_lt _ (by norm_num)
  rw [Nat.shiftLeft_eq, Nat.mul_comm, ← Nat.mul_add_lt_is_or h]
  norm_num
  omega

theorem dirPointerAt_page (mem : Mem) (CR3 va : Nat) :
    dirPointerAt mem CR3 ((va / 2 ^ 8 % 2 ^ 24) * 2 ^ 8) = dirPointerAt mem CR3 va := by
  have h : (va / 2 ^ 8 % 2 ^ 24) * 2 ^ 8 / 2 ^ 24 % 2 ^ 8 = va / 2 ^ 24 % 2 ^ 8 := by
    norm_num
    omega
  unfold dirPointerAt
  rw [h]

theorem ptPointerAt_page (mem : Mem) (CR3 va : Nat) :
    ptPointerAt mem CR3 ((va / 2 ^ 8 % 2 ^ 24) * 2 ^ 8) = ptPointerAt mem CR3 va := by
  have h : (va / 2 ^ 8 % 2 ^ 24) * 2 ^ 8 / 2 ^ 16 % 2 ^ 8 = va / 2 ^ 16 % 2 ^ 8 := by
    norm_num
    omega
  unfold ptPointerAt
  rw [h, dirPointerAt_page]

theorem pteAt_page (mem : Mem) (CR3 va : Nat) :
    pteAt mem CR3 ((va / 2 ^ 8 % 2 ^ 24) * 2 ^ 8) = pteAt mem CR3 va := by
  have h : (va / 2 ^ 8 % 2 ^ 24) * 2 ^ 8 / 2 ^ 8 % 2 ^ 8 = va / 2 ^ 8 % 2 ^ 8 := by
    rw [Nat.mul_div_cancel _ (by norm_num : 0 < 2 ^ 8), Nat.mod_mod_of_dvd _ (by norm_num)]
  unfold pteAt
  rw [h, ptPointerAt_page]

/-- The walk of the page of `va` reaches `e` exactly when the three levels of
`va` are valid and the entry of `va` is `e`. -/
theorem walkEntry_eq_some (mem : Mem) (CR3 va e : Nat)
    (h : walkEntry mem CR3 (va / 2 ^ 8 % 2 ^ 24) = some e) :
    (dirPointerAt mem CR3 va).testBit 0 = true ∧ (ptPointerAt mem CR3 va).testBit 0 = true ∧
      (pteAt mem CR3 va).testBit 31 = true ∧ pteAt mem CR3 va = e := by
  unfold walkEntry at h
  rw [dirPointerAt_page, ptPointerAt_page, pteAt_page] at h
  split at h
  · rename_i hv
    exact ⟨hv.1, hv.2.1, hv.2.2, Option.some.inj h⟩
  · exact absurd h (by simp)

theorem protectionfault_ne_success (x P : Nat) :
    protectionfault x ≠ { status := status_t.SUCCESS, value := P } := by
  intro h
  have h2 : status_t.PROTFAULT = status_t.SUCCESS := congrArg result_t.status h
  exact absurd h2 (by decide)

theorem pagefault_ne_success (x P : Nat) :
    pagefault x ≠ { status := status_t.SUCCESS, value := P } := by
  intro h
  have h2 : status_t.PAGEFAULT = status_t.SUCCESS := congrArg result_t.status h
  exact absurd h2 (by decide)

/-- The concrete cache returns the entry last inserted under a key. -/
theorem listTlb_search_add (s : List (Nat × Nat × Nat)) (i t e : Nat) :
    listTlb.tlb_search (listTlb.tlb_add s i t e) i t = some e := by
  simp [listTlb, List.find?]

/-- C9: cache hit equivalence. In a cache whose probe at a key returns the
entry last inserted at that key, if `mmu_resolve` of `A` misses the cache,
walks the tables, fills the cache and returns `SUCCESS` with `P`, then a
second run on the resulting cache, with the same access kind and privilege
mode, for an address `B` with the same cache index and cache tag as `A`,
returns `SUCCESS` with an address on the same physical page as `P`, and with
`P` itself when `B` is `A`. -/
theorem cache_hit_equivalence {σ : Type} (T : Tlb σ) (mem : Mem) (CR3 : Nat) (SUPER : Int)
    (c c2 : σ) (A B P : Nat) (use : access_t)
    (hlaw : ∀ (s : σ) (i t e : Nat), T.tlb_search (T.tlb_add s i t e) i t = some e)
    (hmiss : T.tlb_search c (A / 2 ^ 8 % 2 ^ 8) (A / 2 ^ 16 % 2 ^ 16) = none)
    (hfirst : mmu_resolve T mem CR3 SUPER c A use =
      some ({ status := status_t.SUCCESS, value := P }, c2))
    (hidx : B / 2 ^ 8 % 2 ^ 8 = A / 2 ^ 8 % 2 ^ 8)
    (htag : B / 2 ^ 16 % 2 ^ 16 = A / 2 ^ 16 % 2 ^ 16) :
    ∃ P2 : Nat,
      mmu_resolve T mem CR3 SUPER c2 B use =
        some ({ status := status_t.SUCCESS, value := P2 }, c2) ∧
      P2 / 2 ^ 8 = P / 2 ^ 8 ∧ (B = A → P2 = P) := by
  rw [mmu_resolve_miss T mem CR3 SUPER c A use hmiss] at hfirst
  split at hfirst
  · split at hfirst
    · split at hfirst
      · -- the walk reached a valid entry and filled the cache
        have h1 := Option.some.inj hfirst
        have hres : evaluateValidPte SUPER use (pteAt mem CR3 A) (A % 2 ^ 8) =
            { status := status_t.SUCCESS, value := P } := congrArg Prod.fst h1
        have hc2 : T.tlb_add c (A / 2 ^ 8 % 2 ^ 8) (A / 2 ^ 16 % 2 ^ 16) (pteAt mem CR3 A) = c2 :=
          congrArg Prod.snd h1
        have hno : ¬ faultCondition SUPER use (pteAt mem CR3 A) := by
          intro hf
          rw [evaluateValidPte_fault SUPER use _ _ hf] at hres
          exact protectionfault_ne_success _ _ hres
        have hA : A % 2 ^ 8 < 2 ^ 8 := Nat.mod_lt _ (by norm_num)
        have hB : B % 2 ^ 8 < 2 ^ 8 := Nat.mod_lt _ (by norm_num)
        rw [evaluateValidPte_ok SUPER use _ _ hno hA] at hres
        have hP : (pteAt mem CR3 A / 2 ^ 4 % 2 ^ 24) * 2 ^ 8 + A % 2 ^ 8 = P :=
          congrArg result_t.value hres
        have hhit : T.tlb_search c2 (B / 2 ^ 8 % 2 ^ 8) (B / 2 ^ 16 % 2 ^ 16) =
            some (pteAt mem CR3 A) := by
          rw [hidx, htag, ← hc2]
          exact hlaw _ _ _ _
        refine ⟨(pteAt mem CR3 A / 2 ^ 4 % 2 ^ 24) * 2 ^ 8 + B % 2 ^ 8, ?_, ?_, ?_⟩
        · rw [mmu_resolve_hit T mem CR3 SUPER c2 B use _ hhit,
            evaluateValidPte_ok SUPER use _ _ hno hB]
          rfl
        · rw [← hP]
          norm_num at hA hB ⊢
          omega
        · intro hBA
          rw [← hP, hBA]
      · exact absurd (congrArg Prod.fst (Option.some.inj hfirst)) (pagefault_ne_success _ _)
    · exact absurd (congrArg Prod.fst (Option.some.inj hfirst)) (pagefault_ne_success _ _)
  · exact absurd hfirst (by simp)

/-- Witness of C9: `0x12345678` is resolved on an empty cache, which fills
the slot `(0x56, 0x1234)`; `0x123456FF` has the same index and tag and is then
resolved from the cache to an address on the same physical page. -/
theorem cache_hit_equivalence_witness :
    ∃ P2 : Nat,
      mmu_resolve listTlb exampleMem 0x1000 0 [(0x56, 0x1234, 0x8ABCDEF4)] 0x123456FF
          access_t.READ =
        some ({ status := status_t.SUCCESS, value := P2 }, [(0x56, 0x1234, 0x8ABCDEF4)]) ∧
      P2 / 2 ^ 8 = 0xABCDEF78 / 2 ^ 8 ∧ (0x123456FF = 0x12345678 → P2 = 0xABCDEF78) :=
  cache_hit_equivalence listTlb exampleMem 0x1000 0 [] [(0x56, 0x1234, 0x8ABCDEF4)]
    0x12345678 0x123456FF 0xABCDEF78 access_t.READ listTlb_search_add
    (by decide) (by decide) (by decide) (by decide)

/-- The cache of the C10 example is coherent with the example tables. -/
theorem example_cache_coherent :
    coherent listTlb exampleMem 0x1000 [(0x56, 0x1234, 0x8ABCDEF4)] := by
  intro i t e _ _ h
  by_cases hk : i = 0x56 ∧ t = 0x1234
  · obtain ⟨hi, ht⟩ := hk
    subst hi
    subst ht
    have he : (0x8ABCDEF4 : Nat) = e := Option.some.inj h
    subst he
    decide
  · have hb : ((0x56 : Nat) == i && (0x1234 : Nat) == t) = false := by
      rcases not_and_or.1 hk with h1 | h1
      · have : ((0x56 : Nat) == i) = false := by
          simpa using fun h2 : (0x56 : Nat) = i => h1 h2.symm
        simp [this]
      · have : ((0x1234 : Nat) == t) = false := by
          simpa using fun h2 : (0x1234 : Nat) = t => h1 h2.symm
        simp [this]
    simp [listTlb, List.find?, hb] at h

/-- C10: when the cache is coherent with the tables, `mmu_resolve` returns for
every address and access kind the tagged result of the same resolution run
against an empty cache, the pure three-level walk; and whenever the probe
hits, that walk does return a result. -/
theorem cache_refines_walk {σ : Type} (T : Tlb σ) (mem : Mem) (CR3 : Nat) (SUPER : Int)
    (c c0 : σ) (va : Nat) (use : access_t)
    (hcoh : coherent T mem CR3 c)
    (hempty : ∀ i t : Nat, T.tlb_search c0 i t = none) :
    (mmu_resolve T mem CR3 SUPER c va use).map Prod.fst =
        (mmu_resolve T mem CR3 SUPER c0 va use).map Prod.fst ∧
    ((T.tlb_search c (va / 2 ^ 8 % 2 ^ 8) (va / 2 ^ 16 % 2 ^ 16)).isSome = true →
      (mmu_resolve T mem CR3 SUPER c0 va use).isSome = true) := by
  have hwalk := mmu_resolve_miss T mem CR3 SUPER c0 va use (hempty _ _)
  cases hs : T.tlb_search c (va / 2 ^ 8 % 2 ^ 8) (va / 2 ^ 16 % 2 ^ 16) with
  | none =>
    refine ⟨?_, fun h => absurd h (by simp)⟩
    rw [mmu_resolve_miss T mem CR3 SUPER c va use hs, hwalk]
    by_cases h1 : (dirPointerAt mem CR3 va).testBit 0 = true
    · by_cases h2 : (ptPointerAt mem CR3 va).testBit 0 = true
      · by_cases h3 : (pteAt mem CR3 va).testBit 31 = true
        · rw [if_pos h1, if_pos h2, if_pos h3, if_pos h1, if_pos h2, if_pos h3]
          rfl
        · rw [if_pos h1, if_pos h2, if_neg h3, if_pos h1, if_pos h2, if_neg h3]
          rfl
      · rw [if_pos h1, if_neg h2, if_pos h1, if_neg h2]
        rfl
    · rw [if_neg h1, if_neg h1]
  | some e =>
    have hi : va / 2 ^ 8 % 2 ^ 8 < 2 ^ 8 := Nat.mod_lt _ (by norm_num)
    have ht : va / 2 ^ 16 % 2 ^ 16 < 2 ^ 16 := Nat.mod_lt _ (by norm_num)
    have hw := hcoh _ _ e hi ht hs
    rw [key_to_vpn] at hw
    obtain ⟨h1, h2, h3, h4⟩ := walkEntry_eq_some mem CR3 va e hw
    rw [mmu_resolve_hit T mem CR3 SUPER c va use e hs, hwalk, if_pos h1, if_pos h2, if_pos h3, h4]
    exact ⟨rfl, fun _ => rfl⟩

/-- Witness of C10: with the slot `(0x56, 0x1234)` holding the entry of page
`0x123456`, the resolution of `0x123456AB` from the cache agrees with the walk
on the empty cache. -/
theorem cache_refines_walk_witness :
    (mmu_resolve listTlb exampleMem 0x1000 0 [(0x56, 0x1234, 0x8ABCDEF4)] 0x123456AB
        access_t.READ).map Prod.fst =
      (mmu_resolve listTlb exampleMem 0x1000 0 [] 0x123456AB access_t.READ).map Prod.fst ∧
    ((listTlb.tlb_search [(0x56, 0x1234, 0x8ABCDEF4)] (0x123456AB / 2 ^ 8 % 2 ^ 8)
        (0x123456AB / 2 ^ 16 % 2 ^ 16)).isSome = true →
      (mmu_resolve listTlb exampleMem 0x1000 0 [] 0x123456AB access_t.READ).isSome = true) :=
  cache_refines_walk listTlb exampleMem 0x1000 0 [(0x56, 0x1234, 0x8ABCDEF4)] [] 0x123456AB
    access_t.READ example_cache_coherent (fun _ _ => rfl)

/-! ## Cache hits and cache fills -/

/-- The locals of `mmu_resolve` are the address fields defined above. -/
theorem mmu_resolve_fields {σ : Type} (T : Tlb σ) (mem : Mem) (CR3 : Nat) (SUPER : Int)
    (c : σ) (va : Nat) (use : access_t) :
    mmu_resolve T mem CR3 SUPER c va use =
      match T.tlb_search c (tlb_index (va % 2 ^ 32)) (tlb_tag (va % 2 ^ 32)) with
      | some pte => some (evaluateValidPte SUPER use pte (po (va % 2 ^ 32)), c)
      | none =>
        if valid_pointer (load mem (CR3 + 4 * dirIndex (va % 2 ^ 32))) ≠ 0 then
          if valid_pointer (load mem (pointer_address (load mem
              (CR3 + 4 * dirIndex (va % 2 ^ 32))) + 4 * ptIndex (va % 2 ^ 32))) ≠ 0 then
            if pte_valid (load mem (pointer_address (load mem (pointer_address (load mem
                (CR3 + 4 * dirIndex (va % 2 ^ 32))) + 4 * ptIndex (va % 2 ^ 32))) +
                4 * pteIndex (va % 2 ^ 32))) ≠ 0 then
              some (evaluateValidPte SUPER use (load mem (pointer_address (load mem
                (pointer_address (load mem (CR3 + 4 * dirIndex (va % 2 ^ 32))) +
                  4 * ptIndex (va % 2 ^ 32))) + 4 * pteIndex (va % 2 ^ 32)))
                (po (va % 2 ^ 32)),
                T.tlb_add c (tlb_index (va % 2 ^ 32)) (tlb_tag (va % 2 ^ 32))
                  (load mem (pointer_address (load mem (pointer_address (load mem
                    (CR3 + 4 * dirIndex (va % 2 ^ 32))) + 4 * ptIndex (va % 2 ^ 32))) +
                    4 * pteIndex (va % 2 ^ 32))))
            else some (pagefault (vpn (va % 2 ^ 32)), c)
          else some (pagefault (vpn (va % 2 ^ 32)), c)
        else none :=
  rfl

/-- The evaluation of an entry, with the address written arithmetically. -/
theorem evaluateValidPte_eq (SUPER : Int) (use : access_t) (pte off : Nat) (hoff : off < 2 ^ 8) :
    evaluateValidPte SUPER use pte off =
      if useFault SUPER use pte ≠ 0 then { status := status_t.PROTFAULT, value := pte }
      else { status := status_t.SUCCESS, value := (pte / 2 ^ 4 % 2 ^ 24) * 2 ^ 8 + off } := by
  unfold evaluateValidPte
  rw [assemble_eq pte off hoff]
  rfl

/-- C11: when the cache probe hits with entry `e`, `mmu_resolve` returns the
evaluation of `e` with the page offset, that is `PROTFAULT` carrying `e` when
`useFault` reports a fault and otherwise `SUCCESS` with
(bits 27..4 of `e` << 8) | offset; the result is the same for every memory and
root, and bit 31 of `e` plays no part. -/
theorem resolve_hit {σ : Type} (T : Tlb σ) (mem : Mem) (CR3 : Nat) (SUPER : Int)
    (c : σ) (va : Nat) (use : access_t) (e : Nat)
    (hhit : T.tlb_search c (va / 2 ^ 8 % 2 ^ 8) (va / 2 ^ 16 % 2 ^ 16) = some e) :
    (mmu_resolve T mem CR3 SUPER c va use).map Prod.fst =
        some (evaluateValidPte SUPER use e (va % 2 ^ 8)) ∧
    evaluateValidPte SUPER use e (va % 2 ^ 8) =
        (if useFault SUPER use e ≠ 0 then { status := status_t.PROTFAULT, value := e }
         else { status := status_t.SUCCESS,
                value := (e / 2 ^ 4 % 2 ^ 24) * 2 ^ 8 + va % 2 ^ 8 }) ∧
    ∀ (mem2 : Mem) (CR32 : Nat),
      mmu_resolve T mem2 CR32 SUPER c va use = mmu_resolve T mem CR3 SUPER c va use := by
  refine ⟨?_, evaluateValidPte_eq SUPER use e _ (Nat.mod_lt _ (by norm_num)), ?_⟩
  · rw [mmu_resolve_hit T mem CR3 SUPER c va use e hhit]
    rfl
  · intro mem2 CR32
    rw [mmu_resolve_hit T mem CR3 SUPER c va use e hhit,
      mmu_resolve_hit T mem2 CR32 SUPER c va use e hhit]

/-- Witness of C11: the slot `(0x56, 0x1234)` holds `0x0ABCDEF4`, an entry with
bit 31 clear, and the directory pointer in memory is invalid; the read of
`0x12345678` still succeeds with `0xABCDEF78`. -/
theorem resolve_hit_witness :
    (mmu_resolve listTlb memDirInvalid 0x1000 0 [(0x56, 0x1234, 0x0ABCDEF4)] 0x12345678
        access_t.READ).map Prod.fst =
      some { status := status_t.SUCCESS, value := 0xABCDEF78 } :=
  ((resolve_hit listTlb memDirInvalid 0x1000 0 [(0x56, 0x1234, 0x0ABCDEF4)] 0x12345678
    access_t.READ 0x0ABCDEF4 (by decide)).1).trans (by decide)

/-- The evaluation of an entry is a success or a protection fault. -/
theorem evaluateValidPte_status (SUPER : Int) (use : access_t) (pte off : Nat) :
    (evaluateValidPte SUPER use pte off).status = status_t.SUCCESS ∨
      (evaluateValidPte SUPER use pte off).status = status_t.PROTFAULT := by
  unfold evaluateValidPte
  split
  · exact Or.inr rfl
  · exact Or.inl rfl

/-- C12: the cache after a call of `mmu_resolve` is the cache before it
whenever the probe hits or the call returns `PAGEFAULT`. Memory is an
argument of `mmu_resolve` and of `mmu_legacy` that neither returns: the
source stores nothing through `cr3`, `dirArray` or `ptArray`. -/
theorem resolve_cache_frame {σ : Type} (T : Tlb σ) (mem : Mem) (CR3 : Nat) (SUPER : Int)
    (c c2 : σ) (va : Nat) (use : access_t) (r : result_t)
    (hcall : mmu_resolve T mem CR3 SUPER c va use = some (r, c2))
    (hcase : (T.tlb_search c (va / 2 ^ 8 % 2 ^ 8) (va / 2 ^ 16 % 2 ^ 16)).isSome = true ∨
      r.status = status_t.PAGEFAULT) :
    c2 = c := by
  cases hs : T.tlb_search c (va / 2 ^ 8 % 2 ^ 8) (va / 2 ^ 16 % 2 ^ 16) with
  | some e =>
    rw [mmu_resolve_hit T mem CR3 SUPER c va use e hs] at hcall
    exact (congrArg Prod.snd (Option.some.inj hcall)).symm
  | none =>
    have hpf : r.status = status_t.PAGEFAULT := by
      rcases hcase with h | h
      · rw [hs] at h
        exact absurd h (by decide)
      · exact h
    rw [mmu_resolve_miss T mem CR3 SUPER c va use hs] at hcall
    split at hcall
    · split at hcall
      · split at hcall
        · have hr : evaluateValidPte SUPER use (pteAt mem CR3 va) (va % 2 ^ 8) = r :=
            congrArg Prod.fst (Option.some.inj hcall)
          rw [← hr] at hpf
          rcases evaluateValidPte_status SUPER use (pteAt mem CR3 va) (va % 2 ^ 8) with h | h
          · rw [h] at hpf
            exact absurd hpf (by decide)
          · rw [h] at hpf
            exact absurd hpf (by decide)
        · exact (congrArg Prod.snd (Option.some.inj hcall)).symm
      · exact (congrArg Prod.snd (Option.some.inj hcall)).symm
    · exact absurd hcall (by simp)

/-- Witness of C12: a call that page-faults on an invalid table pointer
leaves the cache `[(1, 2, 3)]` as it was. -/
theorem resolve_cache_frame_witness :
    mmu_resolve listTlb memPtInvalid 0x1000 0 [(1, 2, 3)] 0x12345678 access_t.READ =
        some (pagefault 0x123456, [(1, 2, 3)]) ∧
      ([(1, 2, 3)] : List (Nat × Nat × Nat)) = [(1, 2, 3)] :=
  ⟨by decide,
    resolve_cache_frame listTlb memPtInvalid 0x1000 0 [(1, 2, 3)] [(1, 2, 3)] 0x12345678
      access_t.READ (pagefault 0x123456) (by decide) (Or.inr rfl)⟩

/-- C13: when the probe misses and the walk reaches a valid entry,
`mmu_resolve` returns the evaluation of the entry together with the cache
into which the entry, unmodified, is inserted at the index and tag of the
address; the evaluation is a `SUCCESS` or a `PROTFAULT`, and the cache is
filled in both cases. -/
theorem resolve_fill {σ : Type} (T : Tlb σ) (mem : Mem) (CR3 : Nat) (SUPER : Int)
    (c : σ) (va : Nat) (use : access_t)
    (hmiss : T.tlb_search c (va / 2 ^ 8 % 2 ^ 8) (va / 2 ^ 16 % 2 ^ 16) = none)
    (hdir : (dirPointerAt mem CR3 va).testBit 0 = true)
    (hpt : (ptPointerAt mem CR3 va).testBit 0 = true)
    (hpte : (pteAt mem CR3 va).testBit 31 = true) :
    mmu_resolve T mem CR3 SUPER c va use =
        some (evaluateValidPte SUPER use (pteAt mem CR3 va) (va % 2 ^ 8),
          T.tlb_add c (tlb_index (va % 2 ^ 32)) (tlb_tag (va % 2 ^ 32)) (pteAt mem CR3 va)) ∧
    ((evaluateValidPte SUPER use (pteAt mem CR3 va) (va % 2 ^ 8)).status = status_t.SUCCESS ∨
      evaluateValidPte SUPER use (pteAt mem CR3 va) (va % 2 ^ 8) =
        { status := status_t.PROTFAULT, value := pteAt mem CR3 va }) := by
  refine ⟨?_, ?_⟩
  · rw [mmu_resolve_miss T mem CR3 SUPER c va use hmiss, if_pos hdir, if_pos hpt, if_pos hpte]
    unfold tlb_index tlb_tag
    rw [fld_index, fld_tag]
  · by_cases hf : faultCondition SUPER use (pteAt mem CR3 va)
    · exact Or.inr (evaluateValidPte_fault SUPER use _ _ hf)
    · rw [evaluateValidPte_ok SUPER use _ _ hf (Nat.mod_lt _ (by norm_num))]
      exact Or.inl rfl

/-- Witness of C13: a `WRITE` to `0x12345678` finds the valid, read-only entry
`0x8ABCDEF4`; the call returns `PROTFAULT` and the entry is in the cache at
`(0x56, 0x1234)`. -/
theorem resolve_fill_witness :
    mmu_resolve listTlb exampleMem 0x1000 0 [] 0x12345678 access_t.WRITE =
      some ({ status := status_t.PROTFAULT, value := 0x8ABCDEF4 },
        [(0x56, 0x1234, 0x8ABCDEF4)]) :=
  ((resolve_fill listTlb exampleMem 0x1000 0 [] 0x12345678 access_t.WRITE
    (by decide) (by decide) (by decide) (by decide)).1).trans (by decide)

/-! ## The cache key and the address fields -/

/-- Evidence against C14 as stated: for `0x12345678` the tag of `mmu_resolve`
is not bits 23..8 of the address (`0x3456`); an entry stored under
`(0x56, 0x3456)` is not found by the probe, the walk is taken, and its entry
is inserted under `(0x56, 0x1234)`. -/
theorem cache_tag_not_middle_bits :
    tlb_tag (0x12345678 % 2 ^ 32) ≠ 0x12345678 / 2 ^ 8 % 2 ^ 16 ∧
    listTlb.tlb_search [(0x56, 0x3456, 0x8000AAA4)] 0x56 (0x12345678 / 2 ^ 8 % 2 ^ 16) =
      some 0x8000AAA4 ∧
    mmu_resolve listTlb exampleMem 0x1000 0 [(0x56, 0x3456, 0x8000AAA4)] 0x12345678
        access_t.READ =
      some ({ status := status_t.SUCCESS, value := 0xABCDEF78 },
        [(0x56, 0x1234, 0x8ABCDEF4), (0x56, 0x3456, 0x8000AAA4)]) := by
  decide

/-- C14, amended: the cache tag that `mmu_resolve` passes to the probe and to
the insert is bits 31..16 of the address, a 16-bit value, and the cache index
is bits 15..8: a hit at that key decides the result, and after a miss the
cache of a call that is no page fault is the insert at that key. -/
theorem cache_key_fields {σ : Type} (T : Tlb σ) (mem : Mem) (CR3 : Nat) (SUPER : Int)
    (c : σ) (va : Nat) (use : access_t) :
    tlb_tag (va % 2 ^ 32) = va / 2 ^ 16 % 2 ^ 16 ∧
    tlb_tag (va % 2 ^ 32) < 2 ^ 16 ∧
    tlb_index (va % 2 ^ 32) = va / 2 ^ 8 % 2 ^ 8 ∧
    (∀ e : Nat, T.tlb_search c (va / 2 ^ 8 % 2 ^ 8) (va / 2 ^ 16 % 2 ^ 16) = some e →
      mmu_resolve T mem CR3 SUPER c va use =
        some (evaluateValidPte SUPER use e (va % 2 ^ 8), c)) ∧
    (T.tlb_search c (va / 2 ^ 8 % 2 ^ 8) (va / 2 ^ 16 % 2 ^ 16) = none →
      ∀ (r : result_t) (c2 : σ), mmu_resolve T mem CR3 SUPER c va use = some (r, c2) →
        r.status ≠ status_t.PAGEFAULT →
        c2 = T.tlb_add c (va / 2 ^ 8 % 2 ^ 8) (va / 2 ^ 16 % 2 ^ 16) (pteAt mem CR3 va)) := by
  have htag : tlb_tag (va % 2 ^ 32) = va / 2 ^ 16 % 2 ^ 16 := fld_tag va
  refine ⟨htag, ?_, fld_index va, ?_, ?_⟩
  · rw [htag]
    exact Nat.mod_lt _ (by norm_num)
  · intro e he
    exact mmu_resolve_hit T mem CR3 SUPER c va use e he
  · intro hmiss r c2 hcall hnpf
    rw [mmu_resolve_miss T mem CR3 SUPER c va use hmiss] at hcall
    split at hcall
    · split at hcall
      · split at hcall
        · exact (congrArg Prod.snd (Option.some.inj hcall)).symm
        · exact absurd (congrArg (fun x => x.1.status) (Option.some.inj hcall)).symm hnpf
      · exact absurd (congrArg (fun x => x.1.status) (Option.some.inj hcall)).symm hnpf
    · exact absurd hcall (by simp)

/-- Witness of C14, amended: the entry stored under `(0x56, 0x1234)`, index
bits 15..8 and tag bits 31..16 of `0x12345678`, is the one the call uses. -/
theorem cache_key_fields_witness :
    mmu_resolve listTlb memDirInvalid 0x1000 0 [(0x56, 0x1234, 0x8ABCDEF4)] 0x12345678
        access_t.READ =
      some (evaluateValidPte 0 access_t.READ 0x8ABCDEF4 (0x12345678 % 2 ^ 8),
        [(0x56, 0x1234, 0x8ABCDEF4)]) :=
  (cache_key_fields listTlb memDirInvalid 0x1000 0 [(0x56, 0x1234, 0x8ABCDEF4)] 0x12345678
    access_t.READ).2.2.2.1 0x8ABCDEF4 (by decide)

/-- C15, evaluated on the code: `0x2001` and `0x2003` are both valid and have
the same address field in bits 31..4, yet `pointer_address` keeps bit 1, the
walk of `0x12345678` dereferences `0x2002` in place of `0x2000`, and the
result changes from `SUCCESS` to `PAGEFAULT`. -/
theorem unused_pointer_bits_change_walk :
    valid_pointer 0x2001 ≠ 0 ∧ valid_pointer 0x2003 ≠ 0 ∧
    0x2003 / 2 ^ 4 = 0x2001 / 2 ^ 4 ∧
    pointer_address 0x2001 = 0x2000 ∧ pointer_address 0x2003 = 0x2002 ∧
    mmu_resolve listTlb exampleMem 0x1000 0 [] 0x12345678 access_t.READ =
      some ({ status := status_t.SUCCESS, value := 0xABCDEF78 },
        [(0x56, 0x1234, 0x8ABCDEF4)]) ∧
    mmu_resolve listTlb memUnusedBit 0x1000 0 [] 0x12345678 access_t.READ =
      some ({ status := status_t.PAGEFAULT, value := 0x123456 }, []) := by
  decide

theorem or_eq_add_of_dvd (x y k : Nat) (hx : 2 ^ k ∣ x) (hy : y < 2 ^ k) :
    x ||| y = x + y := by
  obtain ⟨a, rfl⟩ := hx
  exact (Nat.mul_add_lt_is_or hy a).symm

theorem join_four (d t e o : Nat) (ht : t < 2 ^ 8) (he : e < 2 ^ 8) (ho : o < 2 ^ 8) :
    (d <<< 24) ||| (t <<< 16) ||| (e <<< 8) ||| o =
      d * 2 ^ 24 + t * 2 ^ 16 + e * 2 ^ 8 + o := by
  simp only [Nat.shiftLeft_eq]
  rw [or_eq_add_of_dvd (d * 2 ^ 24) (t * 2 ^ 16) 24 (Dvd.intro_left _ rfl)
      (by norm_num at ht ⊢; omega),
    or_eq_add_of_dvd (d * 2 ^ 24 + t * 2 ^ 16) (e * 2 ^ 8) 16
      (by norm_num; omega) (by norm_num at he ⊢; omega),
    or_eq_add_of_dvd (d * 2 ^ 24 + t * 2 ^ 16 + e * 2 ^ 8) o 8
      (by norm_num; omega) ho]

theorem join_three (d t e : Nat) (ht : t < 2 ^ 8) (he : e < 2 ^ 8) :
    (d <<< 16) ||| (t <<< 8) ||| e = d * 2 ^ 16 + t * 2 ^ 8 + e := by
  simp only [Nat.shiftLeft_eq]
  rw [or_eq_add_of_dvd (d * 2 ^ 16) (t * 2 ^ 8) 16 (Dvd.intro_left _ rfl)
      (by norm_num at ht ⊢; omega),
    or_eq_add_of_dvd (d * 2 ^ 16 + t * 2 ^ 8) e 8 (by norm_num; omega) he]

/-- C16: `mmu_resolve` splits a 32-bit address into four 8-bit fields,
directory index = bits 31..24, table index = bits 23..16, entry index =
bits 15..8, page offset = bits 7..0, and the virtual page number =
bits 31..8; `(directory << 24) | (table << 16) | (entry << 8) | offset` is the
address again and the virtual page number is
`(directory << 16) | (table << 8) | entry`. -/
theorem address_fields (va : Nat) (hva : va < 2 ^ 32) :
    (dirIndex (va % 2 ^ 32) = va / 2 ^ 24 ∧ ptIndex (va % 2 ^ 32) = va / 2 ^ 16 % 2 ^ 8 ∧
      pteIndex (va % 2 ^ 32) = va / 2 ^ 8 % 2 ^ 8 ∧ po (va % 2 ^ 32) = va % 2 ^ 8 ∧
      vpn (va % 2 ^ 32) = va / 2 ^ 8) ∧
    (dirIndex (va % 2 ^ 32) < 2 ^ 8 ∧ ptIndex (va % 2 ^ 32) < 2 ^ 8 ∧
      pteIndex (va % 2 ^ 32) < 2 ^ 8 ∧ po (va % 2 ^ 32) < 2 ^ 8 ∧
      vpn (va % 2 ^ 32) < 2 ^ 24) ∧
    (dirIndex (va % 2 ^ 32) <<< 24) ||| (ptIndex (va % 2 ^ 32) <<< 16) |||
      (pteIndex (va % 2 ^ 32) <<< 8) ||| po (va % 2 ^ 32) = va ∧
    vpn (va % 2 ^ 32) =
      (dirIndex (va % 2 ^ 32) <<< 16) ||| (ptIndex (va % 2 ^ 32) <<< 8) |||
        pteIndex (va % 2 ^ 32) := by
  have hd : dirIndex (va % 2 ^ 32) = va / 2 ^ 24 % 2 ^ 8 := fld_dirIndex va
  have ht : ptIndex (va % 2 ^ 32) = va / 2 ^ 16 % 2 ^ 8 := fld_ptIndex va
  have he : pteIndex (va % 2 ^ 32) = va / 2 ^ 8 % 2 ^ 8 := fld_pteIndex va
  have ho : po (va % 2 ^ 32) = va % 2 ^ 8 := fld_po va
  have hv : vpn (va % 2 ^ 32) = va / 2 ^ 8 % 2 ^ 24 := fld_vpn va
  have bd : va / 2 ^ 24 % 2 ^ 8 < 2 ^ 8 := Nat.mod_lt _ (by norm_num)
  have bt : va / 2 ^ 16 % 2 ^ 8 < 2 ^ 8 := Nat.mod_lt _ (by norm_num)
  have be : va / 2 ^ 8 % 2 ^ 8 < 2 ^ 8 := Nat.mod_lt _ (by norm_num)
  have bo : va % 2 ^ 8 < 2 ^ 8 := Nat.mod_lt _ (by norm_num)
  have bv : va / 2 ^ 8 % 2 ^ 24 < 2 ^ 24 := Nat.mod_lt _ (by norm_num)
  have hd2 : va / 2 ^ 24 % 2 ^ 8 = va / 2 ^ 24 := by
    norm_num at hva ⊢
    omega
  have hv2 : va / 2 ^ 8 % 2 ^ 24 = va / 2 ^ 8 := by
    norm_num at hva ⊢
    omega
  rw [hd, ht, he, ho, hv]
  refine ⟨⟨hd2, rfl, rfl, rfl, hv2⟩, ⟨bd, bt, be, bo, bv⟩, ?_, ?_⟩
  · rw [join_four _ _ _ _ bt be bo]
    norm_num at hva ⊢
    omega
  · rw [join_three _ _ _ bt be]
    norm_num at hva ⊢
    omega

/-- Witness of C16: `0x12345678` gives `0x12`, `0x34`, `0x56`, `0x78` and the
virtual page number `0x123456`. -/
theorem address_fields_witness :
    dirIndex (0x12345678 % 2 ^ 32) = 0x12 ∧ ptIndex (0x12345678 % 2 ^ 32) = 0x34 ∧
      pteIndex (0x12345678 % 2 ^ 32) = 0x56 ∧ po (0x12345678 % 2 ^ 32) = 0x78 ∧
      vpn (0x12345678 % 2 ^ 32) = 0x123456 :=
  (address_fields 0x12345678 (by decide)).1

/-! ## Fault precedence and cache validity -/

/-- A protection fault of the evaluation carries the evaluated entry. -/
theorem evaluateValidPte_protfault (SUPER : Int) (use : access_t) (pte off : Nat)
    (h : (evaluateValidPte SUPER use pte off).status = status_t.PROTFAULT) :
    (evaluateValidPte SUPER use pte off).value = pte := by
  unfold evaluateValidPte at h ⊢
  split
  · rfl
  · rename_i hn
    rw [if_neg hn] at h
    exact absurd (show status_t.SUCCESS = status_t.PROTFAULT from h) (by decide)

/-- Evidence against C17 as stated: the cache holds `0x0ABCDEF4`, an entry
with bit 31 clear, and the table pointer in memory is invalid; a `WRITE`
returns `PROTFAULT` carrying that entry, not a page fault. -/
theorem protfault_from_cached_invalid_entry :
    mmu_resolve listTlb memPtInvalid 0x1000 0 [(0x56, 0x1234, 0x0ABCDEF4)] 0x12345678
        access_t.WRITE =
      some ({ status := status_t.PROTFAULT, value := 0x0ABCDEF4 },
        [(0x56, 0x1234, 0x0ABCDEF4)]) ∧
    Nat.testBit 0x0ABCDEF4 31 = false ∧
    (ptPointerAt memPtInvalid 0x1000 0x12345678).testBit 0 = false := by
  decide

/-- C17, amended: when every entry stored in the cache has bit 31 set, a
`PROTFAULT` returned by `mmu_resolve` carries an entry with bit 31 set; on a
cache miss with an invalid level no protection fault is returned, and with
a valid directory pointer and an invalid table pointer or entry the result
is `PAGEFAULT`. -/
theorem protfault_entry_valid {σ : Type} (T : Tlb σ) (mem : Mem) (CR3 : Nat) (SUPER : Int)
    (c : σ) (va : Nat) (use : access_t)
    (hcache : cacheValid T c) :
    (∀ (r : result_t) (c2 : σ), mmu_resolve T mem CR3 SUPER c va use = some (r, c2) →
      r.status = status_t.PROTFAULT → r.value.testBit 31 = true) ∧
    (T.tlb_search c (va / 2 ^ 8 % 2 ^ 8) (va / 2 ^ 16 % 2 ^ 16) = none →
      ((dirPointerAt mem CR3 va).testBit 0 = false ∨ (ptPointerAt mem CR3 va).testBit 0 = false ∨
        (pteAt mem CR3 va).testBit 31 = false) →
      ∀ (r : result_t) (c2 : σ), mmu_resolve T mem CR3 SUPER c va use = some (r, c2) →
        r.status ≠ status_t.PROTFAULT) ∧
    (T.tlb_search c (va / 2 ^ 8 % 2 ^ 8) (va / 2 ^ 16 % 2 ^ 16) = none →
      (dirPointerAt mem CR3 va).testBit 0 = true →
      ((ptPointerAt mem CR3 va).testBit 0 = false ∨ (pteAt mem CR3 va).testBit 31 = false) →
      (mmu_resolve T mem CR3 SUPER c va use).map Prod.fst =
        some { status := status_t.PAGEFAULT, value := va / 2 ^ 8 % 2 ^ 24 }) := by
  refine ⟨?_, ?_, ?_⟩
  · intro r c2 hcall hprot
    cases hs : T.tlb_search c (va / 2 ^ 8 % 2 ^ 8) (va / 2 ^ 16 % 2 ^ 16) with
    | some e =>
      rw [mmu_resolve_hit T mem CR3 SUPER c va use e hs] at hcall
      have hr : evaluateValidPte SUPER use e (va % 2 ^ 8) = r :=
        congrArg Prod.fst (Option.some.inj hcall)
      rw [← hr] at hprot ⊢
      rw [evaluateValidPte_protfault SUPER use e _ hprot]
      exact hcache _ _ e hs
    | none =>
      rw [mmu_resolve_miss T mem CR3 SUPER c va use hs] at hcall
      split at hcall
      · split at hcall
        · split at hcall
          · rename_i hv
            have hr : evaluateValidPte SUPER use (pteAt mem CR3 va) (va % 2 ^ 8) = r :=
              congrArg Prod.fst (Option.some.inj hcall)
            rw [← hr] at hprot ⊢
            rw [evaluateValidPte_protfault SUPER use _ _ hprot]
            exact hv
          · have hr : pagefault (va / 2 ^ 8 % 2 ^ 24) = r :=
              congrArg Prod.fst (Option.some.inj hcall)
            rw [← hr] at hprot
            exact absurd (show status_t.PAGEFAULT = status_t.PROTFAULT from hprot) (by decide)
        · have hr : pagefault (va / 2 ^ 8 % 2 ^ 24) = r :=
            congrArg Prod.fst (Option.some.inj hcall)
          rw [← hr] at hprot
          exact absurd (show status_t.PAGEFAULT = status_t.PROTFAULT from hprot) (by decide)
      · exact absurd hcall (by simp)
  · intro hmiss hinv r c2 hcall hprot
    rw [mmu_resolve_miss T mem CR3 SUPER c va use hmiss] at hcall
    split at hcall
    · rename_i h1
      split at hcall
      · rename_i h2
        split at hcall
        · rename_i h3
          rcases hinv with h | h | h
          · rw [h] at h1
            exact absurd h1 (by decide)
          · rw [h] at h2
            exact absurd h2 (by decide)
          · rw [h] at h3
            exact absurd h3 (by decide)
        · have hr : pagefault (va / 2 ^ 8 % 2 ^ 24) = r :=
            congrArg Prod.fst (Option.some.inj hcall)
          rw [← hr] at hprot
          exact absurd (show status_t.PAGEFAULT = status_t.PROTFAULT from hprot) (by decide)
      · have hr : pagefault (va / 2 ^ 8 % 2 ^ 24) = r :=
          congrArg Prod.fst (Option.some.inj hcall)
        rw [← hr] at hprot
        exact absurd (show status_t.PAGEFAULT = status_t.PROTFAULT from hprot) (by decide)
    · exact absurd hcall (by simp)
  · intro hmiss hdir hinv
    rw [mmu_resolve_miss T mem CR3 SUPER c va use hmiss, if_pos hdir]
    by_cases h2 : (ptPointerAt mem CR3 va).testBit 0 = true
    · have h3 : ¬ (pteAt mem CR3 va).testBit 31 = true := by
        rcases hinv with h | h
        · rw [h] at h2
          exact absurd h2 (by decide)
        · rw [h]
          decide
      rw [if_pos h2, if_neg h3]
      rfl
    · rw [if_neg h2]
      rfl

/-- The empty list cache stores no entry. -/
theorem cacheValid_nil : cacheValid listTlb [] := by
  intro i t e h
  exact absurd h (by simp [listTlb])

/-- Witness of C17, amended: on the empty cache a `WRITE` to `0x12345678`
walks to the valid read-only entry `0x8ABCDEF4` and the `PROTFAULT` carries
it, with bit 31 set. -/
theorem protfault_entry_valid_witness :
    mmu_resolve listTlb exampleMem 0x1000 0 [] 0x12345678 access_t.WRITE =
        some (protectionfault 0x8ABCDEF4, [(0x56, 0x1234, 0x8ABCDEF4)]) ∧
      (protectionfault 0x8ABCDEF4).value.testBit 31 = true :=
  ⟨by decide,
    (protfault_entry_valid listTlb exampleMem 0x1000 0 [] 0x12345678 access_t.WRITE
      cacheValid_nil).1 (protectionfault 0x8ABCDEF4) [(0x56, 0x1234, 0x8ABCDEF4)]
      (by decide) rfl⟩

/-- In the concrete cache a probe after an insert finds the inserted entry
or an entry that was stored before. -/
theorem listTlb_search_add_cases (s : List (Nat × Nat × Nat)) (i t e i2 t2 e2 : Nat)
    (h : listTlb.tlb_search (listTlb.tlb_add s i t e) i2 t2 = some e2) :
    e2 = e ∨ listTlb.tlb_search s i2 t2 = some e2 := by
  by_cases hk : (i == i2 && t == t2) = true
  · left
    simp only [listTlb, List.find?, hk] at h
    exact (Option.some.inj h).symm
  · right
    have hk2 : (i == i2 && t == t2) = false := by
      cases hb : (i == i2 && t == t2)
      · rfl
      · exact absurd hb hk
    simp only [listTlb, List.find?, hk2] at h ⊢
    exact h

/-- One call keeps the cache free of invalid entries, for a cache in which a
probe after an insert finds the inserted entry or one stored before. -/
theorem cacheValid_step {σ : Type} (T : Tlb σ)
    (hlaw : ∀ (s : σ) (i t e i2 t2 e2 : Nat),
      T.tlb_search (T.tlb_add s i t e) i2 t2 = some e2 → e2 = e ∨ T.tlb_search s i2 t2 = some e2)
    (mem : Mem) (CR3 : Nat) (SUPER : Int) (c c2 : σ) (va : Nat) (use : access_t) (r : result_t)
    (hvalid : cacheValid T c)
    (hcall : mmu_resolve T mem CR3 SUPER c va use = some (r, c2)) :
    cacheValid T c2 := by
  cases hs : T.tlb_search c (va / 2 ^ 8 % 2 ^ 8) (va / 2 ^ 16 % 2 ^ 16) with
  | some e =>
    rw [mmu_resolve_hit T mem CR3 SUPER c va use e hs] at hcall
    have hc : c = c2 := congrArg Prod.snd (Option.some.inj hcall)
    rw [← hc]
    exact hvalid
  | none =>
    rw [mmu_resolve_miss T mem CR3 SUPER c va use hs] at hcall
    split at hcall
    · split at hcall
      · split at hcall
        · rename_i hv
          have hc : T.tlb_add c (va / 2 ^ 8 % 2 ^ 8) (va / 2 ^ 16 % 2 ^ 16) (pteAt mem CR3 va) =
              c2 := congrArg Prod.snd (Option.some.inj hcall)
          rw [← hc]
          intro i2 t2 e2 h2
          rcases hlaw _ _ _ _ _ _ _ h2 with h | h
          · rw [h]
            exact hv
          · exact hvalid _ _ _ h
        · have hc : c = c2 := congrArg Prod.snd (Option.some.inj hcall)
          rw [← hc]
          exact hvalid
      · have hc : c = c2 := congrArg Prod.snd (Option.some.inj hcall)
        rw [← hc]
        exact hvalid
    · exact absurd hcall (by simp)

/-- A sequence of calls keeps the cache free of invalid entries. -/
theorem cacheValid_seq {σ : Type} (T : Tlb σ)
    (hlaw : ∀ (s : σ) (i t e i2 t2 e2 : Nat),
      T.tlb_search (T.tlb_add s i t e) i2 t2 = some e2 → e2 = e ∨ T.tlb_search s i2 t2 = some e2)
    (calls : List (Mem × Nat × Int × Nat × access_t)) :
    ∀ c c2 : σ, cacheValid T c → resolveSeq T c calls = some c2 → cacheValid T c2 := by
  induction calls with
  | nil =>
    intro c c2 hv h
    have hc : c = c2 := Option.some.inj h
    rw [← hc]
    exact hv
  | cons call rest ih =>
    intro c c2 hv h
    unfold resolveSeq at h
    cases hr : mmu_resolve T call.1 call.2.1 call.2.2.1 c call.2.2.2.1 call.2.2.2.2 with
    | none =>
      rw [hr] at h
      exact absurd h (by simp)
    | some r =>
      rw [hr] at h
      exact ih r.2 c2 (cacheValid_step T hlaw _ _ _ c r.2 _ _ r.1 hv hr) h

/-- C18: in a cache that stores what is inserted, if every stored entry has
bit 31 set before a call of `mmu_resolve` then every stored entry has bit 31
set after it; hence after any sequence of calls that starts from an empty
cache every entry that a probe can return is valid. -/
theorem cache_validity_invariant {σ : Type} (T : Tlb σ)
    (hlaw : ∀ (s : σ) (i t e i2 t2 e2 : Nat),
      T.tlb_search (T.tlb_add s i t e) i2 t2 = some e2 →
        e2 = e ∨ T.tlb_search s i2 t2 = some e2) :
    (∀ (mem : Mem) (CR3 : Nat) (SUPER : Int) (c c2 : σ) (va : Nat) (use : access_t)
        (r : result_t), cacheValid T c →
        mmu_resolve T mem CR3 SUPER c va use = some (r, c2) → cacheValid T c2) ∧
    (∀ (c0 c : σ) (calls : List (Mem × Nat × Int × Nat × access_t)),
        (∀ i t : Nat, T.tlb_search c0 i t = none) →
        resolveSeq T c0 calls = some c → cacheValid T c) := by
  refine ⟨?_, ?_⟩
  · intro mem CR3 SUPER c c2 va use r hv hcall
    exact cacheValid_step T hlaw mem CR3 SUPER c c2 va use r hv hcall
  · intro c0 c calls hempty hseq
    have h0 : cacheValid T c0 := by
      intro i t e h
      rw [hempty i t] at h
      exact absurd h (by simp)
    exact cacheValid_seq T hlaw calls c0 c h0 hseq

/-- Witness of C18: after a read and a write of `0x12345678` from the empty
cache, every stored entry is valid. -/
theorem cache_validity_invariant_witness :
    resolveSeq listTlb []
        [(exampleMem, 0x1000, 0, 0x12345678, access_t.READ),
         (exampleMem, 0x1000, 0, 0x12345678, access_t.WRITE)] =
        some [(0x56, 0x1234, 0x8ABCDEF4)] ∧
      cacheValid listTlb [(0x56, 0x1234, 0x8ABCDEF4)] :=
  ⟨by decide,
    (cache_validity_invariant listTlb listTlb_search_add_cases).2 []
      [(0x56, 0x1234, 0x8ABCDEF4)]
      [(exampleMem, 0x1000, 0, 0x12345678, access_t.READ),
       (exampleMem, 0x1000, 0, 0x12345678, access_t.WRITE)]
      (fun _ _ => rfl) (by decide)⟩

/-! ## The cache key identifies the page -/

/-- C19: two addresses with equal cache index and equal cache tag have the
same virtual page number, which is `(tag << 8) | index`; two different
virtual pages never share a key. -/
theorem cache_key_identifies_page (a b : Nat)
    (hidx : tlb_index (a % 2 ^ 32) = tlb_index (b % 2 ^ 32))
    (htag : tlb_tag (a % 2 ^ 32) = tlb_tag (b % 2 ^ 32)) :
    vpn (a % 2 ^ 32) = vpn (b % 2 ^ 32) ∧
    vpn (a % 2 ^ 32) = (tlb_tag (a % 2 ^ 32) <<< 8) ||| tlb_index (a % 2 ^ 32) ∧
    vpn (a % 2 ^ 32) = a % 2 ^ 32 / 2 ^ 8 := by
  have key : ∀ x : Nat, vpn (x % 2 ^ 32) =
      (tlb_tag (x % 2 ^ 32) <<< 8) ||| tlb_index (x % 2 ^ 32) := by
    intro x
    have h1 : vpn (x % 2 ^ 32) = x / 2 ^ 8 % 2 ^ 24 := fld_vpn x
    have h2 : tlb_tag (x % 2 ^ 32) = x / 2 ^ 16 % 2 ^ 16 := fld_tag x
    have h3 : tlb_index (x % 2 ^ 32) = x / 2 ^ 8 % 2 ^ 8 := fld_index x
    rw [h1, h2, h3, key_to_vpn]
  refine ⟨?_, key a, ?_⟩
  · rw [key a, key b, hidx, htag]
  · have h1 : vpn (a % 2 ^ 32) = a / 2 ^ 8 % 2 ^ 24 := fld_vpn a
    rw [h1]
    norm_num
    omega

/-- Witness of C19: `0x12345678` and `0x123456FF` share index `0x56` and tag
`0x1234`, and both lie on the virtual page `0x123456`. -/
theorem cache_key_identifies_page_witness :
    vpn (0x12345678 % 2 ^ 32) = vpn (0x123456FF % 2 ^ 32) ∧
    vpn (0x12345678 % 2 ^ 32) =
      (tlb_tag (0x12345678 % 2 ^ 32) <<< 8) ||| tlb_index (0x12345678 % 2 ^ 32) ∧
    vpn (0x12345678 % 2 ^ 32) = 0x12345678 % 2 ^ 32 / 2 ^ 8 :=
  cache_key_identifies_page 0x12345678 0x123456FF (by decide) (by decide)

/-! ## Supervisor mode and user mode -/

/-- A fault in supervisor mode is a fault in user mode. -/
theorem faultCondition_user_of_super (S : Int) (use : access_t) (pte : Nat)
    (h : faultCondition S use pte) : faultCondition 0 use pte := by
  unfold faultCondition at h ⊢
  rcases h with h | h | h | h
  · exact Or.inl h
  · exact Or.inr (Or.inl h)
  · exact Or.inr (Or.inr (Or.inl h))
  · exact Or.inr (Or.inr (Or.inr ⟨h.1, rfl⟩))

/-- An entry that evaluates to a success in user mode evaluates to the same
success in every mode. -/
theorem evaluateValidPte_success_mono (S : Int) (use : access_t) (pte off P : Nat)
    (h : evaluateValidPte 0 use pte off = { status := status_t.SUCCESS, value := P }) :
    evaluateValidPte S use pte off = { status := status_t.SUCCESS, value := P } := by
  have h0 : ¬ faultCondition 0 use pte := by
    intro hf
    rw [evaluateValidPte_fault 0 use pte off hf] at h
    exact protectionfault_ne_success _ _ h
  have hS : ¬ useFault S use pte ≠ 0 := fun hf =>
    h0 (faultCondition_user_of_super S use pte ((useFault_ne_zero S use pte).1 hf))
  have hU : ¬ useFault 0 use pte ≠ 0 := fun hf => h0 ((useFault_ne_zero 0 use pte).1 hf)
  unfold evaluateValidPte at h ⊢
  rw [if_neg hU] at h
  rw [if_neg hS]
  exact h

/-- The evaluation of an entry is never a page fault. -/
theorem evaluateValidPte_ne_pagefault (S : Int) (use : access_t) (pte off v : Nat) :
    evaluateValidPte S use pte off ≠ pagefault v := by
  intro h
  rcases evaluateValidPte_status S use pte off with hs | hs
  · rw [h] at hs
    exact absurd (show status_t.PAGEFAULT = status_t.SUCCESS from hs) (by decide)
  · rw [h] at hs
    exact absurd (show status_t.PAGEFAULT = status_t.PROTFAULT from hs) (by decide)

/-- A page fault of `mmu_resolve` in one privilege mode is the same page
fault in any other. -/
theorem resolve_pagefault_any_mode {σ : Type} (T : Tlb σ) (mem : Mem) (CR3 : Nat)
    (S1 S2 : Int) (c c2 : σ) (va : Nat) (use : access_t) (v : Nat)
    (h : mmu_resolve T mem CR3 S1 c va use = some (pagefault v, c2)) :
    mmu_resolve T mem CR3 S2 c va use = some (pagefault v, c2) := by
  cases hs : T.tlb_search c (va / 2 ^ 8 % 2 ^ 8) (va / 2 ^ 16 % 2 ^ 16) with
  | some e =>
    rw [mmu_resolve_hit T mem CR3 S1 c va use e hs] at h
    exact absurd (congrArg Prod.fst (Option.some.inj h)) (evaluateValidPte_ne_pagefault _ _ _ _ _)
  | none =>
    rw [mmu_resolve_miss T mem CR3 S1 c va use hs] at h
    rw [mmu_resolve_miss T mem CR3 S2 c va use hs]
    split at h
    · rename_i h1
      split at h
      · rename_i h2
        split at h
        · exact absurd (congrArg Prod.fst (Option.some.inj h))
            (evaluateValidPte_ne_pagefault _ _ _ _ _)
        · rename_i h3
          rw [if_pos h1, if_pos h2, if_neg h3]
          exact h
      · rename_i h2
        rw [if_pos h1, if_neg h2]
        exact h
    · exact absurd h (by simp)

/-- C20: supervisor mode never has fewer rights than user mode. With user
mode `SUPER = 0` and `S` any other value of `SUPER`, supervisor mode included:
an entry without fault in user mode is without fault in mode `S`, a `SUCCESS`
of `mmu_resolve` in user mode is the same `SUCCESS` in mode `S`, and the
`PAGEFAULT` outcomes of the two modes are the same. -/
theorem supervisor_at_least_user {σ : Type} (T : Tlb σ) (mem : Mem) (CR3 : Nat) (S : Int)
    (c : σ) (va : Nat) (use : access_t) :
    (∀ pte : Nat, useFault 0 use pte = 0 → useFault S use pte = 0) ∧
    (∀ (P : Nat) (c2 : σ),
      mmu_resolve T mem CR3 0 c va use = some ({ status := status_t.SUCCESS, value := P }, c2) →
      mmu_resolve T mem CR3 S c va use =
        some ({ status := status_t.SUCCESS, value := P }, c2)) ∧
    (∀ (v : Nat) (c2 : σ),
      mmu_resolve T mem CR3 0 c va use =
          some ({ status := status_t.PAGEFAULT, value := v }, c2) ↔
        mmu_resolve T mem CR3 S c va use =
          some ({ status := status_t.PAGEFAULT, value := v }, c2)) := by
  refine ⟨?_, ?_, ?_⟩
  · intro pte h0
    by_contra hne
    have hf := faultCondition_user_of_super S use pte ((useFault_ne_zero S use pte).1 hne)
    exact (useFault_ne_zero 0 use pte).2 hf h0
  · intro P c2 h
    cases hs : T.tlb_search c (va / 2 ^ 8 % 2 ^ 8) (va / 2 ^ 16 % 2 ^ 16) with
    | some e =>
      rw [mmu_resolve_hit T mem CR3 0 c va use e hs] at h
      rw [mmu_resolve_hit T mem CR3 S c va use e hs]
      have hr : evaluateValidPte 0 use e (va % 2 ^ 8) =
          { status := status_t.SUCCESS, value := P } := congrArg Prod.fst (Option.some.inj h)
      have hc : c = c2 := congrArg Prod.snd (Option.some.inj h)
      rw [evaluateValidPte_success_mono S use e _ P hr, hc]
    | none =>
      rw [mmu_resolve_miss T mem CR3 0 c va use hs] at h
      rw [mmu_resolve_miss T mem CR3 S c va use hs]
      split at h
      · rename_i h1
        split at h
        · rename_i h2
          split at h
          · rename_i h3
            have hr : evaluateValidPte 0 use (pteAt mem CR3 va) (va % 2 ^ 8) =
                { status := status_t.SUCCESS, value := P } :=
              congrArg Prod.fst (Option.some.inj h)
            have hc : T.tlb_add c (va / 2 ^ 8 % 2 ^ 8) (va / 2 ^ 16 % 2 ^ 16)
                (pteAt mem CR3 va) = c2 := congrArg Prod.snd (Option.some.inj h)
            rw [if_pos h1, if_pos h2, if_pos h3,
              evaluateValidPte_success_mono S use _ _ P hr, hc]
          · exact absurd (congrArg Prod.fst (Option.some.inj h)) (pagefault_ne_success _ _)
        · exact absurd (congrArg Prod.fst (Option.some.inj h)) (pagefault_ne_success _ _)
      · exact absurd h (by simp)
  · intro v c2
    exact ⟨resolve_pagefault_any_mode T mem CR3 0 S c c2 va use v,
      resolve_pagefault_any_mode T mem CR3 S 0 c c2 va use v⟩

/-- Witness of C20: the read of `0x12345678` succeeds with `0xABCDEF78` in
user mode, hence in supervisor mode (`SUPER` is `1`). -/
theorem supervisor_at_least_user_witness :
    mmu_resolve listTlb exampleMem 0x1000 1 [] 0x12345678 access_t.READ =
      some ({ status := status_t.SUCCESS, value := 0xABCDEF78 },
        [(0x56, 0x1234, 0x8ABCDEF4)]) :=
  (supervisor_at_least_user listTlb exampleMem 0x1000 1 [] 0x12345678
    access_t.READ).2.1 0xABCDEF78 [(0x56, 0x1234, 0x8ABCDEF4)] (by decide)

end Mmu
